import Mathlib

/-
  Verification of the Deep Research Agent workflow engine
  (src/types/agent.ts, src/agent/graph.ts, src/agent/index.ts,
   src/agent/tools/search.ts).

  Shallow embedding conventions:
  * relevance scores are modelled as rationals (the source compares and
    sorts them; no rounding behaviour is relevant);
  * each LLM / search collaborator call is modelled as a function the
    graph driver feeds with a call counter, so that stateful deterministic
    mocks (as in the spec's test scenarios) are expressible;
  * replies that the source immediately feeds to JSON.parse are modelled
    post-parse (see FilterReply, SynthReply, the Tavily reply);
  * JavaScript's `a || b` on strings/numbers (empty string and 0 are
    falsy) is modelled by jsOrStr / jsOrRat;
  * JavaScript's Array.prototype.sort sorts in place and is stable
    (ES2019); it is modelled by List.mergeSort, and the in-place effect of
    the sort in filterRelevance's catch branch is modelled by returning
    the (possibly mutated) input state alongside the partial update.
-/

namespace ResearchAgent

set_option maxRecDepth 100000

/-- A search result (interface SearchResult, src/types/agent.ts). -/
structure SearchHit where
  title : String
  url : String
  content : String
  score : ℚ
  timestamp : Option String
deriving DecidableEq

/-- An analysis step (interface AnalysisStep, src/types/agent.ts). -/
structure AnalysisStep where
  step : String
  findings : String
  confidence : ℚ
deriving DecidableEq

/-- Final synthesized findings (interface MigrationFindings,
src/types/agent.ts).  The synthesis node always constructs every field,
so `examples` is modelled as a plain list. -/
structure MigrationFindings where
  summary : String
  migrationSteps : List String
  breakingChanges : List String
  examples : List String
  sources : List String
deriving DecidableEq

/-- type AgentStatus (src/types/agent.ts). -/
inductive AgentStatus
  | idle
  | parsing_query
  | searching
  | filtering_results
  | analyzing
  | synthesizing
  | complete
  | error
deriving DecidableEq

/-- Chat messages appended by the query parser node (HumanMessage /
AIMessage from langchain, only their text content matters here). -/
inductive ChatMessage
  | human (s : String)
  | ai (s : String)
deriving DecidableEq

/-- The full agent state (AgentStateAnnotation.State, src/types/agent.ts). -/
structure AgentState where
  query : String
  enhancedQuery : Option String
  searchResults : Option (List SearchHit)
  relevantResults : Option (List SearchHit)
  analysisSteps : Option (List AnalysisStep)
  findings : Option MigrationFindings
  messages : List ChatMessage
  status : AgentStatus
  error : Option String
  searchAttempts : Nat
deriving DecidableEq

/-- A partial state update as returned by a node (Partial<AgentState>):
`some v` means the key is present with value `v`, `none` means the key is
absent.  Nodes never write the `query` channel, so it is omitted. -/
structure PartialState where
  enhancedQuery : Option String := none
  searchResults : Option (List SearchHit) := none
  relevantResults : Option (List SearchHit) := none
  analysisSteps : Option (List AnalysisStep) := none
  findings : Option MigrationFindings := none
  messages : Option (List ChatMessage) := none
  status : Option AgentStatus := none
  error : Option String := none
  searchAttempts : Option Nat := none
deriving DecidableEq

/-- Channel merge of a partial update into the state, following the
reducers of AgentStateAnnotation: `messages` concatenates, every other
channel is replace-with-latest (keys absent from the update leave the
channel untouched). -/
def applyUpdate (s : AgentState) (p : PartialState) : AgentState where
  query := s.query
  enhancedQuery := match p.enhancedQuery with | some v => some v | none => s.enhancedQuery
  searchResults := match p.searchResults with | some v => some v | none => s.searchResults
  relevantResults := match p.relevantResults with | some v => some v | none => s.relevantResults
  analysisSteps := match p.analysisSteps with | some v => some v | none => s.analysisSteps
  findings := match p.findings with | some v => some v | none => s.findings
  messages := s.messages ++ p.messages.getD []
  status := p.status.getD s.status
  error := match p.error with | some v => some v | none => s.error
  searchAttempts := p.searchAttempts.getD s.searchAttempts

/-- JavaScript `a || b` for an optional string: `undefined` and the empty
string are falsy. -/
def jsOrStr (o : Option String) (d : String) : String :=
  match o with
  | some s => if s.isEmpty then d else s
  | none => d

/-- JavaScript `a || b` for an optional number: `undefined` and 0 are
falsy. -/
def jsOrRat (o : Option ℚ) (d : ℚ) : ℚ :=
  match o with
  | some x => if x = 0 then d else x
  | none => d

/-- JavaScript `a || b` for an optional array: only `undefined` is falsy
(an empty array is truthy). -/
def jsOrList (o : Option (List String)) (d : List String) : List String :=
  o.getD d

/-- The relevance filter LLM's reply, modelled after trimming and
JSON.parse: `unparsable` covers replies on which JSON.parse throws,
`indices l` covers replies parsing to an array of integers.  (Replies
parsing to other JSON shapes are outside the model.) -/
inductive FilterReply
  | unparsable
  | indices (l : List Int)

/-- The synthesis LLM's reply once it parsed as JSON: each field may be
absent. -/
structure SynthParsed where
  summary : Option String
  migrationSteps : Option (List String)
  breakingChanges : Option (List String)
  examples : Option (List String)
  notes : Option (List String)

/-- The synthesis LLM's reply, modelled after trimming and the JSON.parse
attempt; `unparsable raw` keeps the raw (trimmed) text for the degraded
report. -/
inductive SynthReply
  | unparsable (raw : String)
  | parsed (p : SynthParsed)

/-- A raw hit record as returned by the Tavily collaborator once its JSON
string reply parsed (fields may be missing). -/
structure RawHit where
  title : Option String
  url : Option String
  content : Option String
  snippet : Option String
  score : Option ℚ

/-- The external collaborators (LLM and search provider), as deterministic
but possibly stateful mocks: the first argument of `enhance`, `tavily`
and `analyzeLLM` is the invocation count of the corresponding call site,
so that e.g. "insufficient on attempt 1, sufficient on attempt 2" mocks
are expressible.  `Except.error` models a thrown error (its message).
`now` models `new Date().toISOString()`. -/
structure Collab where
  enhance : Nat → String → Except String String
  tavily : Nat → String → Except String (Option (List RawHit))
  filterLLM : String → String → Except String FilterReply
  analyzeLLM : Nat → String → String → Except String String
  synthLLM : String → Nat → String → Except String SynthReply
  now : String

/-- Coercion of a raw Tavily record into a SearchHit
(src/agent/tools/search.ts, executeSearch's map; the score default 0.5
is written Rat.mk' 1 2). -/
def coerceHit (c : Collab) (i : Nat) (r : RawHit) : SearchHit where
  title := jsOrStr r.title ("Result " ++ toString (i + 1))
  url := jsOrStr r.url ""
  content := jsOrStr r.content (jsOrStr r.snippet "")
  score := jsOrRat r.score (Rat.mk' 1 2)
  timestamp := some c.now

/-- executeSearch (src/agent/tools/search.ts): invoke Tavily, parse the
JSON reply (`.ok none` models a reply JSON.parse rejects, which raises
"Invalid search results format" inside the try block), coerce the
records, drop hits whose content is empty or has length ≤ 50, and wrap
any thrown error as "Search failed: ...". -/
def executeSearch (c : Collab) (k : Nat) (q : String) : Except String (List SearchHit) :=
  match c.tavily k q with
  | .error e => .error ("Search failed: " ++ e)
  | .ok none => .error ("Search failed: Invalid search results format")
  | .ok (some raws) =>
      .ok (((raws.mapIdx (coerceHit c)).filter
        (fun h => !h.content.isEmpty && decide (50 < h.content.length))))

/-- validateSearchResults (src/agent/tools/search.ts): reject empty
result lists, otherwise require at least one hit with score > 0.7 and
content longer than 200 characters.  (The literal 0.7 is written in the
kernel-computable normal form Rat.mk' 7 10; the equality with the
decimal literal is proved below.) -/
def validateSearchResults (results : List SearchHit) : Bool :=
  if results.length = 0 then false
  else results.any (fun r => decide (Rat.mk' 7 10 < r.score) && decide (200 < r.content.length))

/-- Node parseQuery (src/agent/graph.ts): enhance the user query via the
LLM; on success store the trimmed reply, set status "searching" and
append the exchange to `messages`; on a thrown error report it. -/
def parseQuery (c : Collab) (kp : Nat) (s : AgentState) : PartialState :=
  match c.enhance kp s.query with
  | .ok content =>
      let enhancedQuery := content.trim
      { enhancedQuery := some enhancedQuery
        status := some .searching
        messages := some [.human s.query, .ai enhancedQuery] }
  | .error e =>
      { status := some .error, error := some ("Query parsing failed: " ++ e) }

/-- Node search (src/agent/graph.ts): search with the enhanced query
(falling back to the original), validate the results; on insufficient
results retry (by appending a fixed suffix and looping back) while fewer
than 2 attempts were made, otherwise fail; on a thrown error report it. -/
def searchNode (c : Collab) (ks : Nat) (s : AgentState) : PartialState :=
  let query := jsOrStr s.enhancedQuery s.query
  match executeSearch c ks query with
  | .error e => { status := some .error, error := some ("Search failed: " ++ e) }
  | .ok searchResults =>
      if validateSearchResults searchResults then
        { searchResults := some searchResults, status := some .filtering_results }
      else
        if s.searchAttempts < 2 then
          { searchAttempts := some (s.searchAttempts + 1)
            status := some .parsing_query
            enhancedQuery := some (query ++ " official documentation breaking changes") }
        else
          { status := some .error, error := some "Could not find sufficient search results" }

/-- Fallback hit used to model out-of-range JavaScript array indexing in
positions that are in fact always in range. -/
def defaultHit : SearchHit :=
  { title := "", url := "", content := "", score := 0, timestamp := none }

/-- The stable descending-by-score sort `(a, b) => b.score - a.score`
used by filterRelevance. -/
def sortByScoreDesc (rs : List SearchHit) : List SearchHit :=
  rs.mergeSort (fun a b => decide (b.score ≤ a.score))

/-- The results text the filter node formats for the LLM prompt. -/
def resultsText (rs : List SearchHit) : String :=
  String.intercalate "\n\n" (rs.mapIdx (fun i r =>
    "[" ++ toString i ++ "] " ++ r.title ++ "\nURL: " ++ r.url ++
    "\nContent: " ++ r.content.take 300 ++ "..."))

/-- Node filterRelevance (src/agent/graph.ts).  Returns the partial
update together with the input state as it stands after the call: in the
catch branch (LLM invocation threw) the source sorts
`state.searchResults` with Array.prototype.sort, which sorts the array
in place, so the returned state carries the re-ordered `searchResults`;
every other path leaves the input untouched. -/
def filterRelevance (c : Collab) (s : AgentState) : PartialState × AgentState :=
  match s.searchResults with
  | none => ({ status := some .error, error := some "No search results to filter" }, s)
  | some rs =>
    if rs.length = 0 then
      ({ status := some .error, error := some "No search results to filter" }, s)
    else
      match c.filterLLM s.query (resultsText rs) with
      | .ok reply =>
          let relevantIndices : List Int :=
            match reply with
            | .indices l => l
            | .unparsable =>
                ((((List.range rs.length).map Int.ofNat).mergeSort
                  (fun a b => decide ((rs.getD b.toNat defaultHit).score ≤
                                      (rs.getD a.toNat defaultHit).score))).take 5)
          let relevantResults :=
            (relevantIndices.filter
              (fun i => decide (0 ≤ i) && decide (i < (rs.length : Int)))).map
              (fun i => rs.getD i.toNat defaultHit)
          ({ relevantResults := some relevantResults, status := some .analyzing }, s)
      | .error _ =>
          let sorted := sortByScoreDesc rs
          ({ relevantResults := some (sorted.take 5), status := some .analyzing },
           { s with searchResults := some sorted })

/-- The analysis loop of analyzeResults: one LLM call per hit, in order;
a thrown error aborts the loop.  `i` is the index of the call within the
node invocation. -/
def analyzeLoop (c : Collab) (q : String) : Nat → List SearchHit → Except String (List AnalysisStep)
  | _, [] => .ok []
  | i, r :: rest =>
      match c.analyzeLLM i q r.content with
      | .error e => .error e
      | .ok reply =>
          match analyzeLoop c q (i + 1) rest with
          | .error e => .error e
          | .ok steps =>
              .ok ({ step := "Analysis of: " ++ r.title
                     findings := reply.trim
                     confidence := r.score } :: steps)

/-- Node analyzeResults (src/agent/graph.ts): analyze the first 3
relevant results, one AnalysisStep per hit; on a thrown error report it. -/
def analyzeResults (c : Collab) (s : AgentState) : PartialState :=
  match s.relevantResults with
  | none => { status := some .error, error := some "No relevant results to analyze" }
  | some rs =>
    if rs.length = 0 then
      { status := some .error, error := some "No relevant results to analyze" }
    else
      match analyzeLoop c s.query 0 (rs.take 3) with
      | .error e => { status := some .error, error := some ("Analysis failed: " ++ e) }
      | .ok steps => { analysisSteps := some steps, status := some .synthesizing }

/-- The analyses text the synthesis node formats for the LLM prompt. -/
def analysesText (steps : List AnalysisStep) : String :=
  String.intercalate "\n\n---\n\n" (steps.map (fun st => st.step ++ ":\n" ++ st.findings))

/-- Node synthesizeFindings (src/agent/graph.ts): one LLM call over the
combined analyses; a reply that fails to parse degrades into a report
whose summary is the raw text; sources are the URLs of the first 5
relevant results. -/
def synthesizeFindings (c : Collab) (s : AgentState) : PartialState :=
  match s.analysisSteps with
  | none => { status := some .error, error := some "No analyses to synthesize" }
  | some steps =>
    if steps.length = 0 then
      { status := some .error, error := some "No analyses to synthesize" }
    else
      match c.synthLLM s.query steps.length (analysesText steps) with
      | .error e => { status := some .error, error := some ("Synthesis failed: " ++ e) }
      | .ok reply =>
          let synthesis : SynthParsed :=
            match reply with
            | .parsed p => p
            | .unparsable raw =>
                { summary := some raw, migrationSteps := some [],
                  breakingChanges := some [], examples := some [], notes := none }
          let sources : List String :=
            match s.relevantResults with
            | some rr => (rr.take 5).map (·.url)
            | none => []
          let findings : MigrationFindings :=
            { summary := jsOrStr synthesis.summary "Migration guide synthesis"
              migrationSteps := jsOrList synthesis.migrationSteps []
              breakingChanges := jsOrList synthesis.breakingChanges []
              examples := jsOrList synthesis.examples (jsOrList synthesis.notes [])
              sources := sources }
          { findings := some findings, status := some .complete }

/-- The five graph nodes (buildResearchGraph, src/agent/graph.ts); the
source names the first node "query_parser". -/
inductive Node
  | queryParser
  | search
  | relevance_filter
  | deep_analysis
  | synthesis
deriving DecidableEq

/-- The conditional edges of buildResearchGraph: stop on error, loop
back from search to the query parser on the retry signal, otherwise
follow the chain; synthesis always ends the run. -/
def route (n : Node) (s : AgentState) : Option Node :=
  match n with
  | .queryParser => if s.status = .error then none else some .search
  | .search =>
      if s.status = .error then none
      else if s.status = .parsing_query then some .queryParser
      else some .relevance_filter
  | .relevance_filter => if s.status = .error then none else some .deep_analysis
  | .deep_analysis => if s.status = .error then none else some .synthesis
  | .synthesis => none

/-- Collaborator call counters (how often the query parser and the search
node have run), threading the statefulness of the mocks. -/
structure Counters where
  kp : Nat
  ks : Nat
deriving DecidableEq

/-- Execute one node: returns the partial update, the input state as it
stands after the node ran (only filterRelevance can mutate it), and the
advanced counters. -/
def stepNode (c : Collab) (cnt : Counters) (n : Node) (s : AgentState) :
    PartialState × AgentState × Counters :=
  match n with
  | .queryParser => (parseQuery c cnt.kp s, s, { cnt with kp := cnt.kp + 1 })
  | .search => (searchNode c cnt.ks s, s, { cnt with ks := cnt.ks + 1 })
  | .relevance_filter =>
      let r := filterRelevance c s
      (r.1, r.2, cnt)
  | .deep_analysis => (analyzeResults c s, s, cnt)
  | .synthesis => (synthesizeFindings c s, s, cnt)

/-- One record per node execution: the node, the state it was invoked
on, the partial update it returned (the chunk a streaming consumer
sees), and the merged state after it. -/
structure TraceEntry where
  node : Node
  input : AgentState
  update : PartialState
  post : AgentState
deriving DecidableEq

/-- The merged state after one node execution: the node's update applied
to the input state as it stands after the node ran. -/
def postOf (c : Collab) (cnt : Counters) (n : Node) (s : AgentState) : AgentState :=
  applyUpdate (stepNode c cnt n s).2.1 (stepNode c cnt n s).1

/-- The graph execution loop: run the node, merge its update, consult the
router, continue until the router terminates (fuel models LangGraph's
recursion limit, which is never reached). -/
def runAux (c : Collab) : Nat → Counters → Node → AgentState → AgentState × List TraceEntry
  | 0, _, _, s => (s, [])
  | fuel + 1, cnt, n, s =>
      match route n (postOf c cnt n s) with
      | none => (postOf c cnt n s, [⟨n, s, (stepNode c cnt n s).1, postOf c cnt n s⟩])
      | some n' =>
          ((runAux c fuel (stepNode c cnt n s).2.2 n' (postOf c cnt n s)).1,
           ⟨n, s, (stepNode c cnt n s).1, postOf c cnt n s⟩ ::
             (runAux c fuel (stepNode c cnt n s).2.2 n' (postOf c cnt n s)).2)

/-- The initial state built by the entry points (src/agent/index.ts):
query, status "parsing_query", searchAttempts 0; all other channels at
their defaults. -/
def initialState (q : String) : AgentState :=
  { query := q, enhancedQuery := none, searchResults := none,
    relevantResults := none, analysisSteps := none, findings := none,
    messages := [], status := .parsing_query, error := none, searchAttempts := 0 }

/-- A full graph run from the entry node (25 is LangGraph's default
recursion limit; termination is proved well below it). -/
def runGraph (c : Collab) (q : String) : AgentState × List TraceEntry :=
  runAux c 25 ⟨0, 0⟩ .queryParser (initialState q)

/-- executeResearch (src/agent/index.ts): invoke the graph; if the final
state is in the error status, throw its error message (defaulting when
falsy), otherwise return the final state. -/
def executeResearch (c : Collab) (q : String) : Except String AgentState :=
  let fin := (runGraph c q).1
  if fin.status = .error then .error (jsOrStr fin.error "Unknown error occurred")
  else .ok fin

/-- What a caller observes when reading the fields of a state-typed
JavaScript value: absent keys read as undefined.  Both the full final
state of executeResearch and the partial update executeResearchStreaming
casts to AgentState are compared through this view. -/
structure JsView where
  query : Option String
  enhancedQuery : Option String
  searchResults : Option (List SearchHit)
  relevantResults : Option (List SearchHit)
  analysisSteps : Option (List AnalysisStep)
  findings : Option MigrationFindings
  messages : Option (List ChatMessage)
  status : Option AgentStatus
  error : Option String
  searchAttempts : Option Nat
deriving DecidableEq

/-- View of a full AgentState: every field is present. -/
def stateView (s : AgentState) : JsView :=
  ⟨some s.query, s.enhancedQuery, s.searchResults, s.relevantResults,
   s.analysisSteps, s.findings, some s.messages, some s.status, s.error,
   some s.searchAttempts⟩

/-- View of a partial update cast to AgentState: keys the node did not
write read as undefined (`query` is never written by a node). -/
def updateView (p : PartialState) : JsView :=
  ⟨none, p.enhancedQuery, p.searchResults, p.relevantResults,
   p.analysisSteps, p.findings, p.messages, p.status, p.error,
   p.searchAttempts⟩

/-- executeResearchStreaming (src/agent/index.ts): iterate the stream of
per-node update chunks `{ [nodeName]: partialState }` (the repository's
documented chunk shape), invoke onUpdate with each chunk's value, keep
the last one as "finalState", and apply the same error translation as
executeResearch to it.  Returns the result together with the list of
onUpdate arguments. -/
def executeResearchStreaming (c : Collab) (q : String) :
    Except String JsView × List JsView :=
  let upds := ((runGraph c q).2).map (fun e => updateView e.update)
  match upds.getLast? with
  | none => (.error "Graph execution produced no final state", upds)
  | some v =>
      if v.status = some .error then
        (.error (jsOrStr v.error "Unknown error occurred"), upds)
      else (.ok v, upds)

/-! Remaining-step budget used to prove termination of the run. -/

/-- Upper bound on the number of node executions still to come when `n`
is about to run on `s` (assuming `s.searchAttempts ≤ 2`). -/
def nodeBudget (n : Node) (s : AgentState) : Nat :=
  match n with
  | .queryParser => 9 - 2 * s.searchAttempts
  | .search => 8 - 2 * s.searchAttempts
  | .relevance_filter => 3
  | .deep_analysis => 2
  | .synthesis => 1

/-! Concrete collaborators and states used as test vectors. -/

/-- A default AnalysisStep, used only to model array indexing. -/
def defaultStep : AnalysisStep :=
  { step := "", findings := "", confidence := 0 }

/-- A default trace entry, used only to model list indexing. -/
def dummyEntry : TraceEntry :=
  { node := .synthesis, input := initialState "", update := {}, post := initialState "" }

/-- A 210-character content string (passes both the > 50 and the > 200
checks). -/
def longContent : String := String.join (List.replicate 21 "aaaaaaaaaa")

/-- A 60-character content string (passes the > 50 check but fails the
> 200 quality check). -/
def weakContent : String := String.join (List.replicate 6 "aaaaaaaaaa")

/-- A raw hit that survives coercion with a high score and long content. -/
def goodRaw : RawHit :=
  { title := some "Good", url := some "http://g", content := some longContent,
    snippet := none, score := some (Rat.mk' 9 10) }

/-- A raw hit that survives coercion but fails the quality check. -/
def weakRaw : RawHit :=
  { title := some "Weak", url := some "http://w", content := some weakContent,
    snippet := none, score := some (Rat.mk' 1 2) }

/-- A collaborator on which every call succeeds on the first attempt. -/
def happyCollab : Collab where
  enhance := fun _ _ => .ok "enhanced query"
  tavily := fun _ _ => .ok (some [goodRaw, weakRaw])
  filterLLM := fun _ _ => .ok (.indices [0, 1])
  analyzeLLM := fun _ _ _ => .ok "analysis text"
  synthLLM := fun _ _ _ =>
    .ok (.parsed { summary := some "sum", migrationSteps := some ["s1"],
                   breakingChanges := some ["b1"], examples := none,
                   notes := some ["n1"] })
  now := "t0"

/-- A collaborator whose search returns insufficient results on the first
two attempts and sufficient results on the third. -/
def retryCollab : Collab :=
  { happyCollab with
    tavily := fun k _ => if k < 2 then .ok (some [weakRaw]) else .ok (some [goodRaw]) }

/-- A collaborator whose search always returns insufficient results. -/
def failCollab : Collab :=
  { happyCollab with tavily := fun _ _ => .ok (some [weakRaw]) }

/-- A collaborator whose filter LLM call throws. -/
def throwingFilterCollab : Collab :=
  { happyCollab with filterLLM := fun _ _ => .error "LLM transport error" }

/-- A collaborator whose filter LLM reply is unparsable. -/
def unparsingCollab : Collab :=
  { happyCollab with filterLLM := fun _ _ => .ok .unparsable }

/-- A low-scoring hit (listed first, so a descending sort re-orders). -/
def lowHit : SearchHit :=
  { title := "low", url := "u1", content := "c1", score := Rat.mk' 3 10, timestamp := none }

/-- A high-scoring hit. -/
def highHit : SearchHit :=
  { title := "high", url := "u2", content := "c2", score := Rat.mk' 4 5, timestamp := none }

/-- A state about to enter the relevance filter, with unsorted raw
results. -/
def filterInputState : AgentState :=
  { initialState "q" with status := .filtering_results,
                          searchResults := some [lowHit, highHit] }

/-- A state about to enter the search node with both retries already
used. -/
def exhaustedState : AgentState :=
  { initialState "q" with status := .searching, enhancedQuery := some "eq",
                          searchAttempts := 2 }

/-- Ten distinct hits, input for the analyze-cap witness. -/
def tenHits : List SearchHit :=
  (List.range 10).map (fun i =>
    { title := "t" ++ toString i, url := "u" ++ toString i,
      content := "c" ++ toString i, score := Rat.mk' 1 2, timestamp := none })

/-- A state about to enter the deep-analysis node with ten relevant
results. -/
def analyzeInputState : AgentState :=
  { initialState "q" with status := .analyzing, relevantResults := some tenHits }

end ResearchAgent
namespace ResearchAgent

/-! ### Fidelity of the rational literals -/

/-- The validation threshold Rat.mk' 7 10 is the source's literal 0.7. -/
theorem threshold_is_literal : (Rat.mk' 7 10 : ℚ) = 0.7 := by
  rw [Rat.mk'_eq_divInt, Rat.divInt_eq_div]; norm_num

/-- The score default Rat.mk' 1 2 is the source's literal 0.5. -/
theorem score_default_is_literal : (Rat.mk' 1 2 : ℚ) = 0.5 := by
  rw [Rat.mk'_eq_divInt, Rat.divInt_eq_div]; norm_num

/-! ### Basic projection lemmas for the channel merge -/

theorem applyUpdate_query (s : AgentState) (p : PartialState) :
    (applyUpdate s p).query = s.query := rfl

theorem applyUpdate_status (s : AgentState) (p : PartialState) :
    (applyUpdate s p).status = p.status.getD s.status := rfl

theorem applyUpdate_searchAttempts (s : AgentState) (p : PartialState) :
    (applyUpdate s p).searchAttempts = p.searchAttempts.getD s.searchAttempts := rfl

/-! ### C7: search-result validation -/

/-- C7.  The search validation accepts a result list iff it contains a
hit with score > 0.7 and content longer than 200 characters; in
particular an empty list is always rejected. -/
theorem validate_iff_quality_hit (results : List SearchHit) :
    validateSearchResults results = true ↔
      ∃ r ∈ results, (0.7 : ℚ) < r.score ∧ 200 < r.content.length := by
  cases results with
  | nil => simp [validateSearchResults]
  | cons r rs =>
      simp [validateSearchResults, List.any_eq_true, threshold_is_literal]

/-! ### C9: exhausted-retries error message -/

/-- C9 counterexample: with retries exhausted and insufficient results
the search node does enter the error status, but its failure message is
not "insufficient search results". -/
theorem search_error_message_cex :
    (searchNode failCollab 0 exhaustedState).status = some .error ∧
    (searchNode failCollab 0 exhaustedState).error ≠ some "insufficient search results" := by
  decide

/-- C9 (amended).  When search validation fails with searchAttempts
already at least 2, the search node reports the error status with the
message "Could not find sufficient search results". -/
theorem search_exhausted_error (c : Collab) (ks : Nat) (s : AgentState)
    (res : List SearchHit)
    (h1 : executeSearch c ks (jsOrStr s.enhancedQuery s.query) = .ok res)
    (h2 : validateSearchResults res = false)
    (h3 : 2 ≤ s.searchAttempts) :
    searchNode c ks s =
      { status := some .error,
        error := some "Could not find sufficient search results" } := by
  simp only [searchNode]
  rw [h1]
  simp [h2, Nat.not_lt.mpr h3]

/-- C9 witness: the amended theorem applied at a concrete collaborator
and state. -/
theorem search_exhausted_error_witness :
    searchNode failCollab 0 exhaustedState =
      { status := some .error,
        error := some "Could not find sufficient search results" } :=
  search_exhausted_error failCollab 0 exhaustedState _ rfl (by decide) (by decide)

/-! ### C2: the filter node mutates its input on the catch path -/

/-- C2: the relevance filter's catch fallback (filter LLM throws) sorts
`state.searchResults` in place, so the incoming state's searchResults is
re-ordered — contradicting the contract that a node never mutates its
input. -/
theorem filter_catch_mutates_input :
    filterInputState.searchResults = some [lowHit, highHit] ∧
    (filterRelevance throwingFilterCollab filterInputState).2.searchResults
      = some [highHit, lowHit] ∧
    (filterRelevance throwingFilterCollab filterInputState).2.searchResults
      ≠ filterInputState.searchResults := by
  have h2 : (filterRelevance throwingFilterCollab filterInputState).2.searchResults
      = some [highHit, lowHit] := by
    simp [filterRelevance, filterInputState, throwingFilterCollab, happyCollab,
      initialState, sortByScoreDesc, List.mergeSort, List.merge, lowHit, highHit]
    decide
  refine ⟨rfl, h2, ?_⟩
  rw [h2]
  decide

end ResearchAgent
namespace ResearchAgent

/-! ### Shape facts about node updates -/

/-- Every branch of every node writes the status channel. -/
theorem stepNode_status_isSome (c : Collab) (cnt : Counters) (n : Node) (s : AgentState) :
    ((stepNode c cnt n s).1.status).isSome := by
  cases n <;>
    simp only [stepNode, parseQuery, searchNode, filterRelevance, analyzeResults,
      synthesizeFindings] <;>
    (repeat' split) <;> simp

/-- A node writes the error channel exactly when it enters the error
status. -/
theorem stepNode_error_iff (c : Collab) (cnt : Counters) (n : Node) (s : AgentState) :
    ((stepNode c cnt n s).1.error).isSome ↔ (stepNode c cnt n s).1.status = some .error := by
  cases n <;>
    simp only [stepNode, parseQuery, searchNode, filterRelevance, analyzeResults,
      synthesizeFindings] <;>
    (repeat' split) <;> simp

/-- A node writes the findings channel exactly when it enters the
complete status. -/
theorem stepNode_findings_iff (c : Collab) (cnt : Counters) (n : Node) (s : AgentState) :
    ((stepNode c cnt n s).1.findings).isSome ↔ (stepNode c cnt n s).1.status = some .complete := by
  cases n <;>
    simp only [stepNode, parseQuery, searchNode, filterRelevance, analyzeResults,
      synthesizeFindings] <;>
    (repeat' split) <;> simp

/-- Only the synthesis node can enter the complete status. -/
theorem stepNode_complete_synth (c : Collab) (cnt : Counters) (n : Node) (s : AgentState) :
    (stepNode c cnt n s).1.status = some .complete → n = .synthesis := by
  cases n <;>
    simp only [stepNode, parseQuery, searchNode, filterRelevance, analyzeResults,
      synthesizeFindings] <;>
    (repeat' split) <;> simp

/-- A node writes searchAttempts only on the search retry branch, where
it increments it under the retry guard. -/
theorem stepNode_attempts (c : Collab) (cnt : Counters) (n : Node) (s : AgentState) :
    (stepNode c cnt n s).1.searchAttempts = none ∨
      ((stepNode c cnt n s).1.searchAttempts = some (s.searchAttempts + 1) ∧
       s.searchAttempts < 2 ∧
       (stepNode c cnt n s).1.status = some .parsing_query) := by
  cases n <;>
    simp only [stepNode, parseQuery, searchNode, filterRelevance, analyzeResults,
      synthesizeFindings] <;>
    (repeat' split) <;> simp_all

/-- The parsing_query status is produced only by the search retry
branch. -/
theorem stepNode_parsing_retry (c : Collab) (cnt : Counters) (n : Node) (s : AgentState) :
    (stepNode c cnt n s).1.status = some .parsing_query →
      s.searchAttempts < 2 ∧
      (stepNode c cnt n s).1.searchAttempts = some (s.searchAttempts + 1) := by
  cases n <;>
    simp only [stepNode, parseQuery, searchNode, filterRelevance, analyzeResults,
      synthesizeFindings] <;>
    (repeat' split) <;> simp_all

/-- The synthesis node ends in complete or error status. -/
theorem stepNode_synth_status (c : Collab) (cnt : Counters) (s : AgentState) :
    (stepNode c cnt .synthesis s).1.status = some .complete ∨
    (stepNode c cnt .synthesis s).1.status = some .error := by
  simp only [stepNode, synthesizeFindings]
  (repeat' split) <;> simp

/-- The state a node leaves behind differs from its input at most in the
searchResults field (only the filter catch path re-orders it in place). -/
theorem stepNode_inputAfter (c : Collab) (cnt : Counters) (n : Node) (s : AgentState) :
    (stepNode c cnt n s).2.1.query = s.query ∧
    (stepNode c cnt n s).2.1.enhancedQuery = s.enhancedQuery ∧
    (stepNode c cnt n s).2.1.relevantResults = s.relevantResults ∧
    (stepNode c cnt n s).2.1.analysisSteps = s.analysisSteps ∧
    (stepNode c cnt n s).2.1.findings = s.findings ∧
    (stepNode c cnt n s).2.1.messages = s.messages ∧
    (stepNode c cnt n s).2.1.status = s.status ∧
    (stepNode c cnt n s).2.1.error = s.error ∧
    (stepNode c cnt n s).2.1.searchAttempts = s.searchAttempts := by
  cases n <;>
    simp only [stepNode, filterRelevance] <;>
    (repeat' split) <;> simp

/-- On success, the query parser overwrites enhancedQuery with the
trimmed reply of the enhancement LLM applied to the original query. -/
theorem stepNode_parse_enhanced (c : Collab) (cnt : Counters) (s : AgentState) :
    (stepNode c cnt .queryParser s).1.status = some .error ∨
      ∃ r, c.enhance cnt.kp s.query = .ok r ∧
        (stepNode c cnt .queryParser s).1.enhancedQuery = some r.trim ∧
        (stepNode c cnt .queryParser s).1.status = some .searching := by
  simp only [stepNode, parseQuery]
  cases h : c.enhance cnt.kp s.query with
  | ok r => exact Or.inr ⟨r, rfl, by simp, by simp⟩
  | error e => exact Or.inl (by simp)

end ResearchAgent
namespace ResearchAgent

/-! ### Generic run invariants -/

/-- Invariant induction over the execution loop: if `I` holds where a
node is invoked and is carried both to the routed successor and (as `F`)
to every merged post-state, then `I` holds at every trace entry's input,
`F` at every entry's post-state and at the final state. -/
theorem runAux_invariant (c : Collab) (I : Node → AgentState → Prop) (F : AgentState → Prop)
    (hIF : ∀ n s, I n s → F s)
    (hstep : ∀ cnt n s, I n s →
      F (postOf c cnt n s) ∧
      ∀ n', route n (postOf c cnt n s) = some n' → I n' (postOf c cnt n s)) :
    ∀ fuel cnt n s, I n s →
      (∀ e ∈ (runAux c fuel cnt n s).2, I e.node e.input ∧ F e.post) ∧
      F (runAux c fuel cnt n s).1 := by
  intro fuel
  induction fuel with
  | zero =>
      intro cnt n s hI
      exact ⟨by simp [runAux], hIF n s hI⟩
  | succ f ih =>
      intro cnt n s hI
      obtain ⟨hF, hroute⟩ := hstep cnt n s hI
      simp only [runAux]
      cases h : route n (postOf c cnt n s) with
      | none =>
          refine ⟨?_, hF⟩
          intro e he
          simp only [List.mem_singleton] at he
          subst he
          exact ⟨hI, hF⟩
      | some n' =>
          have hI' := hroute n' h
          obtain ⟨htr, hfin⟩ := ih (stepNode c cnt n s).2.2 n' (postOf c cnt n s) hI'
          refine ⟨?_, hfin⟩
          intro e he
          simp only [List.mem_cons] at he
          rcases he with he | he
          · subst he; exact ⟨hI, hF⟩
          · exact htr e he

end ResearchAgent
namespace ResearchAgent

/-- A routed continuation never leaves an error-status state. -/
theorem route_some_ne_error (n : Node) (s : AgentState) (n' : Node)
    (h : route n s = some n') : s.status ≠ .error := by
  cases n <;> simp only [route] at h <;> (repeat' split at h) <;> simp_all

/-- The status of the merged post-state is the status the node wrote. -/
theorem postOf_status (c : Collab) (cnt : Counters) (n : Node) (s : AgentState) :
    (stepNode c cnt n s).1.status = some (postOf c cnt n s).status := by
  have h := stepNode_status_isSome c cnt n s
  cases hs : (stepNode c cnt n s).1.status with
  | none => rw [hs] at h; simp at h
  | some st =>
      simp only [postOf, applyUpdate_status, hs, Option.getD_some]

/-- searchAttempts stays bounded by 2 across one node execution. -/
theorem postOf_attempts_le (c : Collab) (cnt : Counters) (n : Node) (s : AgentState)
    (h : s.searchAttempts ≤ 2) : (postOf c cnt n s).searchAttempts ≤ 2 := by
  obtain ⟨_, _, _, _, _, _, _, _, h9⟩ := stepNode_inputAfter c cnt n s
  have hA := stepNode_attempts c cnt n s
  simp only [postOf, applyUpdate_searchAttempts]
  rcases hA with hA | ⟨hA, hlt, _⟩ <;> rw [hA] <;> simp [h9] <;> omega

/-- C4 part one as a run-level lemma: searchAttempts never exceeds 2 in
any reachable state. -/
theorem runGraph_attempts_le (c : Collab) (q : String) :
    (∀ e ∈ (runGraph c q).2,
        e.input.searchAttempts ≤ 2 ∧ e.post.searchAttempts ≤ 2) ∧
    (runGraph c q).1.searchAttempts ≤ 2 :=
  runAux_invariant c (fun _ s => s.searchAttempts ≤ 2) (fun s => s.searchAttempts ≤ 2)
    (fun _ _ h => h)
    (fun cnt n s h =>
      ⟨postOf_attempts_le c cnt n s h, fun _ _ => postOf_attempts_le c cnt n s h⟩)
    25 ⟨0, 0⟩ .queryParser (initialState q) (by simp [initialState])

/-- The report/phase invariant carried by every node execution. -/
theorem runGraph_findings_inv (c : Collab) (q : String) :
    (∀ e ∈ (runGraph c q).2,
        (e.post.status = .complete → e.post.findings.isSome) ∧
        (e.post.status = .error → e.post.findings = none ∧ e.post.error.isSome) ∧
        (e.post.findings.isSome ↔ e.post.status = .complete)) ∧
    (((runGraph c q).1.status = .complete → (runGraph c q).1.findings.isSome) ∧
     ((runGraph c q).1.status = .error →
        (runGraph c q).1.findings = none ∧ (runGraph c q).1.error.isSome) ∧
     ((runGraph c q).1.findings.isSome ↔ (runGraph c q).1.status = .complete)) := by
  have main := runAux_invariant c
    (fun n s => s.findings = none ∧ s.status ≠ .complete ∧ s.status ≠ .error)
    (fun s => (s.status = .complete → s.findings.isSome) ∧
      (s.status = .error → s.findings = none ∧ s.error.isSome) ∧
      (s.findings.isSome ↔ s.status = .complete))
    (by
      rintro n s ⟨h1, h2, h3⟩
      refine ⟨fun h => absurd h h2, fun h => absurd h h3, ?_⟩
      simp [h1, h2])
    (by
      rintro cnt n s ⟨h1, h2, h3⟩
      obtain ⟨_, _, _, _, h5, _, h7, _, _⟩ := stepNode_inputAfter c cnt n s
      have hst := postOf_status c cnt n s
      have herr := stepNode_error_iff c cnt n s
      have hfnd := stepNode_findings_iff c cnt n s
      have hpostfindings : (postOf c cnt n s).findings =
          (match (stepNode c cnt n s).1.findings with
           | some v => some v
           | none => (stepNode c cnt n s).2.1.findings) := rfl
      have hposterror : (postOf c cnt n s).error =
          (match (stepNode c cnt n s).1.error with
           | some v => some v
           | none => (stepNode c cnt n s).2.1.error) := rfl
      have hfindings_eq : (postOf c cnt n s).findings.isSome ↔
          (postOf c cnt n s).status = .complete := by
        rw [hpostfindings]
        cases hf : (stepNode c cnt n s).1.findings with
        | some v =>
            have hpc : (stepNode c cnt n s).1.status = some AgentStatus.complete :=
              hfnd.mp (by rw [hf]; rfl)
            rw [hst] at hpc
            simp [Option.some_inj.mp hpc]
        | none =>
            simp only [h5, h1, Option.isSome_none, Bool.false_eq_true, false_iff]
            intro hcomp
            have hsome := hfnd.mpr (by rw [hst, hcomp])
            rw [hf] at hsome
            simp at hsome
      refine ⟨⟨fun hc => hfindings_eq.mpr hc, ?_, hfindings_eq⟩, ?_⟩
      · intro herr'
        constructor
        · by_contra hne
          have : (postOf c cnt n s).findings.isSome := by
            cases hx : (postOf c cnt n s).findings with
            | none => exact absurd hx hne
            | some v => simp
          rw [hfindings_eq] at this
          rw [this] at herr'
          exact absurd herr' (by simp)
        · have hpe : (stepNode c cnt n s).1.error.isSome := by
            rw [herr, hst, herr']
          rw [hposterror]
          cases hx : (stepNode c cnt n s).1.error with
          | none => rw [hx] at hpe; simp at hpe
          | some m => simp
      · intro n' hr
        have hne := route_some_ne_error n (postOf c cnt n s) n' hr
        have hnc : (postOf c cnt n s).status ≠ .complete := by
          intro hc
          have := stepNode_complete_synth c cnt n s (by rw [hst, hc])
          subst this
          simp [route] at hr
        refine ⟨?_, hnc, hne⟩
        by_contra hne2
        have : (postOf c cnt n s).findings.isSome := by
          cases hx : (postOf c cnt n s).findings with
          | none => exact absurd hx hne2
          | some v => simp
        rw [hfindings_eq] at this
        exact hnc this)
    25 ⟨0, 0⟩ .queryParser (initialState q) (by simp [initialState])
  exact ⟨fun e he => (main.1 e he).2, main.2⟩

end ResearchAgent
namespace ResearchAgent

/-- C10 run-level lemma: every invocation of the search node happens on a
state whose enhancedQuery is the trimmed reply of some enhancement-LLM
call on the original query — the disambiguation suffix appended by a
search retry is always overwritten before search runs again. -/
theorem runGraph_search_inputs (c : Collab) (q : String) :
    ∀ e ∈ (runGraph c q).2, e.node = .search →
      ∃ k r, c.enhance k q = .ok r ∧ e.input.enhancedQuery = some r.trim := by
  have main := runAux_invariant c
    (fun n s => s.query = q ∧
      (n = .search → ∃ k r, c.enhance k q = .ok r ∧ s.enhancedQuery = some r.trim))
    (fun _ => True)
    (fun _ _ _ => trivial)
    (by
      rintro cnt n s ⟨hq, -⟩
      refine ⟨trivial, ?_⟩
      intro n' hr
      have hq' : (postOf c cnt n s).query = q := by
        show (applyUpdate (stepNode c cnt n s).2.1 (stepNode c cnt n s).1).query = q
        rw [applyUpdate_query, (stepNode_inputAfter c cnt n s).1, hq]
      refine ⟨hq', ?_⟩
      intro hn'
      subst hn'
      cases n with
      | queryParser =>
          rcases stepNode_parse_enhanced c cnt s with herrb | ⟨r, hok, henh, -⟩
          · have hne := route_some_ne_error _ _ _ hr
            have hst := postOf_status c cnt .queryParser s
            rw [herrb] at hst
            exact absurd (Option.some_inj.mp hst).symm hne
          · refine ⟨cnt.kp, r, by rw [← hq]; exact hok, ?_⟩
            show (applyUpdate (stepNode c cnt .queryParser s).2.1
                    (stepNode c cnt .queryParser s).1).enhancedQuery = some r.trim
            show (match (stepNode c cnt .queryParser s).1.enhancedQuery with
                  | some v => some v
                  | none => (stepNode c cnt .queryParser s).2.1.enhancedQuery) = some r.trim
            rw [henh]
      | search => simp only [route] at hr; (repeat' split at hr) <;> simp_all
      | relevance_filter => simp only [route] at hr; (repeat' split at hr) <;> simp_all
      | deep_analysis => simp only [route] at hr; (repeat' split at hr) <;> simp_all
      | synthesis => simp only [route] at hr; exact absurd hr (by simp))
    25 ⟨0, 0⟩ .queryParser (initialState q) (by simp [initialState])
  exact fun e he hn => ((main.1 e he).1.2) hn

/-! ### Termination and the node-execution bound -/

/-- Budgets are positive while searchAttempts ≤ 2. -/
theorem one_le_nodeBudget (n : Node) (s : AgentState) (h : s.searchAttempts ≤ 2) :
    1 ≤ nodeBudget n s := by
  cases n <;> simp [nodeBudget] <;> omega

/-- Across every routed edge the remaining budget strictly decreases. -/
theorem route_budget (c : Collab) (cnt : Counters) (n : Node) (s : AgentState) (n' : Node)
    (ha : s.searchAttempts ≤ 2) (h : route n (postOf c cnt n s) = some n') :
    nodeBudget n' (postOf c cnt n s) + 1 ≤ nodeBudget n s := by
  obtain ⟨_, _, _, _, _, _, _, _, h9⟩ := stepNode_inputAfter c cnt n s
  have hattp : (postOf c cnt n s).searchAttempts =
      ((stepNode c cnt n s).1.searchAttempts).getD s.searchAttempts := by
    rw [postOf, applyUpdate_searchAttempts, h9]
  cases n with
  | queryParser =>
      have hA := stepNode_attempts c cnt .queryParser s
      have hnone : (stepNode c cnt .queryParser s).1.searchAttempts = none := by
        rcases hA with hA | ⟨-, -, hP⟩
        · exact hA
        · have hst := postOf_status c cnt .queryParser s
          rw [hP] at hst
          have := Option.some_inj.mp hst
          simp only [route] at h
          split at h
          · exact absurd h (by simp)
          · -- routed to search, fine; attempts may be none or retry-shaped,
            -- but the retry shape is impossible for the parser node
            exact absurd hP (by
              rcases stepNode_parse_enhanced c cnt s with he | ⟨r, -, -, hs2⟩
              · rw [he]; simp
              · rw [hs2]; simp)
      simp only [route] at h
      split at h
      · exact absurd h (by simp)
      · have hn' : n' = .search := by
          have := h; simp at this; exact this.symm
        subst hn'
        rw [nodeBudget, nodeBudget, hattp, hnone, Option.getD_none]
        omega
  | search =>
      simp only [route] at h
      split at h
      · exact absurd h (by simp)
      · split at h
        · -- retry edge back to the query parser
          rename_i hpq
          have hn' : n' = .queryParser := by have := h; simp at this; exact this.symm
          subst hn'
          have hst := postOf_status c cnt .search s
          have hps : (stepNode c cnt .search s).1.status = some .parsing_query := by
            rw [hst, hpq]
          obtain ⟨hlt, hsm⟩ := stepNode_parsing_retry c cnt .search s hps
          rw [nodeBudget, nodeBudget, hattp, hsm, Option.getD_some]
          omega
        · -- forward edge to the relevance filter
          rename_i hpq
          have hn' : n' = .relevance_filter := by have := h; simp at this; exact this.symm
          subst hn'
          rw [nodeBudget, nodeBudget]
          omega
  | relevance_filter =>
      simp only [route] at h
      split at h
      · exact absurd h (by simp)
      · have hn' : n' = .deep_analysis := by have := h; simp at this; exact this.symm
        subst hn'
        rw [nodeBudget, nodeBudget]
  | deep_analysis =>
      simp only [route] at h
      split at h
      · exact absurd h (by simp)
      · have hn' : n' = .synthesis := by have := h; simp at this; exact this.symm
        subst hn'
        rw [nodeBudget, nodeBudget]
  | synthesis =>
      simp only [route] at h
      exact absurd h (by simp)

/-- The number of node executions of a run is bounded by the budget. -/
theorem runAux_length (c : Collab) :
    ∀ fuel cnt n s, s.searchAttempts ≤ 2 →
      (runAux c fuel cnt n s).2.length ≤ nodeBudget n s := by
  intro fuel
  induction fuel with
  | zero => intro cnt n s _; simp [runAux]
  | succ f ih =>
      intro cnt n s ha
      simp only [runAux]
      cases h : route n (postOf c cnt n s) with
      | none =>
          simp only [List.length_singleton]
          exact one_le_nodeBudget n s ha
      | some n' =>
          simp only [List.length_cons]
          have hb := route_budget c cnt n s n' ha h
          have ha' := postOf_attempts_le c cnt n s ha
          have := ih (stepNode c cnt n s).2.2 n' (postOf c cnt n s) ha'
          omega

/-- With enough fuel the run ends in a terminal status. -/
theorem runAux_terminal (c : Collab) :
    ∀ fuel cnt n s, s.searchAttempts ≤ 2 → nodeBudget n s ≤ fuel →
      (runAux c fuel cnt n s).1.status = .complete ∨
      (runAux c fuel cnt n s).1.status = .error := by
  intro fuel
  induction fuel with
  | zero =>
      intro cnt n s ha hf
      have := one_le_nodeBudget n s ha
      omega
  | succ f ih =>
      intro cnt n s ha hf
      simp only [runAux]
      cases h : route n (postOf c cnt n s) with
      | none =>
          cases n with
          | synthesis =>
              rcases stepNode_synth_status c cnt s with hs | hs <;>
                [left; right] <;>
                · have hst := postOf_status c cnt .synthesis s
                  rw [hs] at hst
                  exact (Option.some_inj.mp hst).symm
          | queryParser =>
              simp only [route] at h
              split at h
              · right; assumption
              · exact absurd h (by simp)
          | search =>
              simp only [route] at h
              split at h
              · right; assumption
              · split at h <;> exact absurd h (by simp)
          | relevance_filter =>
              simp only [route] at h
              split at h
              · right; assumption
              · exact absurd h (by simp)
          | deep_analysis =>
              simp only [route] at h
              split at h
              · right; assumption
              · exact absurd h (by simp)
      | some n' =>
          have hb := route_budget c cnt n s n' ha h
          have ha' := postOf_attempts_le c cnt n s ha
          exact ih (stepNode c cnt n s).2.2 n' (postOf c cnt n s) ha' (by omega)

end ResearchAgent
namespace ResearchAgent

/-! ### The last chunk of a run determines the reported outcome -/

/-- When the merged state is in the error status, the node's own update
carries the same error message. -/
theorem postOf_error_eq (c : Collab) (cnt : Counters) (n : Node) (s : AgentState)
    (h : (postOf c cnt n s).status = .error) :
    (stepNode c cnt n s).1.error = (postOf c cnt n s).error := by
  have hst := postOf_status c cnt n s
  rw [h] at hst
  have hes := (stepNode_error_iff c cnt n s).mpr hst
  obtain ⟨m, hm⟩ := Option.isSome_iff_exists.mp hes
  show (stepNode c cnt n s).1.error =
    (match (stepNode c cnt n s).1.error with
     | some v => some v
     | none => (stepNode c cnt n s).2.1.error)
  rw [hm]

/-- When the merged state is in the complete status, the node's own
update carries the same findings. -/
theorem postOf_findings_eq (c : Collab) (cnt : Counters) (n : Node) (s : AgentState)
    (h : (postOf c cnt n s).status = .complete) :
    (stepNode c cnt n s).1.findings = (postOf c cnt n s).findings := by
  have hst := postOf_status c cnt n s
  rw [h] at hst
  have hes := (stepNode_findings_iff c cnt n s).mpr hst
  obtain ⟨m, hm⟩ := Option.isSome_iff_exists.mp hes
  show (stepNode c cnt n s).1.findings =
    (match (stepNode c cnt n s).1.findings with
     | some v => some v
     | none => (stepNode c cnt n s).2.1.findings)
  rw [hm]

/-- A run with fuel produces at least one trace entry. -/
theorem runAux_trace_ne_nil (c : Collab) (fuel : Nat) (cnt : Counters) (n : Node)
    (s : AgentState) (h : 0 < fuel) : (runAux c fuel cnt n s).2 ≠ [] := by
  cases fuel with
  | zero => omega
  | succ f =>
      simp only [runAux]
      cases route n (postOf c cnt n s) <;> simp

/-- The last trace entry's post-state is the final state, and its update
carries the final status (and, in the terminal statuses, the final error
message / findings). -/
theorem runAux_last (c : Collab) :
    ∀ fuel cnt n s,
      ((runAux c fuel cnt n s).2 = [] → (runAux c fuel cnt n s).1 = s) ∧
      (∀ e, ((runAux c fuel cnt n s).2).getLast? = some e →
        e.post = (runAux c fuel cnt n s).1 ∧
        e.update.status = some (runAux c fuel cnt n s).1.status ∧
        ((runAux c fuel cnt n s).1.status = .error →
          e.update.error = (runAux c fuel cnt n s).1.error) ∧
        ((runAux c fuel cnt n s).1.status = .complete →
          e.update.findings = (runAux c fuel cnt n s).1.findings)) := by
  intro fuel
  induction fuel with
  | zero =>
      intro cnt n s
      refine ⟨fun _ => rfl, ?_⟩
      intro e he
      simp [runAux] at he
  | succ f ih =>
      intro cnt n s
      simp only [runAux]
      cases h : route n (postOf c cnt n s) with
      | none =>
          refine ⟨by simp, ?_⟩
          intro e he
          simp only [List.getLast?_singleton, Option.some_inj] at he
          subst he
          exact ⟨rfl, (postOf_status c cnt n s).symm ▸ postOf_status c cnt n s,
            fun herr => postOf_error_eq c cnt n s herr,
            fun hcmp => postOf_findings_eq c cnt n s hcmp⟩
      | some n' =>
          dsimp only
          obtain ⟨hnil, hlast⟩ := ih (stepNode c cnt n s).2.2 n' (postOf c cnt n s)
          cases htr : (runAux c f (stepNode c cnt n s).2.2 n' (postOf c cnt n s)).2 with
          | nil =>
              have hfin := hnil htr
              refine ⟨by simp, ?_⟩
              intro e he
              simp only [List.getLast?_singleton, Option.some_inj] at he
              subst he
              rw [hfin]
              exact ⟨rfl, postOf_status c cnt n s,
                fun herr => postOf_error_eq c cnt n s herr,
                fun hcmp => postOf_findings_eq c cnt n s hcmp⟩
          | cons x xs =>
              refine ⟨by simp, ?_⟩
              intro e he
              rw [List.getLast?_cons_cons, ← htr] at he
              exact hlast e he
end ResearchAgent
namespace ResearchAgent

set_option maxRecDepth 100000

/-! ### C1: blocking vs streaming entry point -/

/-- C1 counterexample: on a plain happy-path run the two entry points do
not return identical final states — the blocking entry point's state has
the query present, the streaming entry point returns the last node's
partial update, whose query field is absent. -/
theorem streaming_final_state_differs :
    (executeResearch happyCollab "my query").map stateView ≠
      (executeResearchStreaming happyCollab "my query").1 := by
  have hL : (match (executeResearch happyCollab "my query").map stateView with
      | Except.ok v => v.query
      | Except.error _ => none) = some "my query" := by decide
  have hR : (match (executeResearchStreaming happyCollab "my query").1 with
      | Except.ok v => v.query
      | Except.error _ => none) = (none : Option String) := by decide
  intro h
  rw [h] at hL
  rw [hR] at hL
  exact Option.noConfusion hL

/-- C1 (amended).  The streaming entry point invokes onUpdate once per
node execution, in order, with that node's partial update (not the
merged post-node state); both entry points fail together with the same
error message; and on success the blocking entry point returns the full
final state while the streaming entry point returns the last (synthesis)
node's update, which carries the same status and findings but omits the
channels that node did not write. -/
theorem streaming_refines_run (c : Collab) (q : String) :
    (executeResearchStreaming c q).2 =
      ((runGraph c q).2).map (fun e => updateView e.update) ∧
    ((runGraph c q).1.status = .error →
      executeResearch c q =
        .error (jsOrStr (runGraph c q).1.error "Unknown error occurred") ∧
      (executeResearchStreaming c q).1 =
        .error (jsOrStr (runGraph c q).1.error "Unknown error occurred")) ∧
    ((runGraph c q).1.status ≠ .error →
      (runGraph c q).1.status = .complete ∧
      executeResearch c q = .ok (runGraph c q).1 ∧
      ∃ v, (executeResearchStreaming c q).1 = .ok v ∧
        v.status = some .complete ∧
        v.findings = (runGraph c q).1.findings ∧ v.findings.isSome) := by
  obtain ⟨e, he⟩ : ∃ e, ((runGraph c q).2).getLast? = some e := by
    have hnn : (runGraph c q).2 ≠ [] :=
      runAux_trace_ne_nil c 25 ⟨0, 0⟩ .queryParser (initialState q) (by norm_num)
    cases hx : ((runGraph c q).2).getLast? with
    | some e => exact ⟨e, rfl⟩
    | none => exact absurd (List.getLast?_eq_none_iff.mp hx) hnn
  obtain ⟨hpost, hstat, herr, hfnd⟩ :=
    (runAux_last c 25 ⟨0, 0⟩ .queryParser (initialState q)).2 e he
  have hstat : e.update.status = some (runGraph c q).1.status := hstat
  have herr : (runGraph c q).1.status = .error →
      e.update.error = (runGraph c q).1.error := herr
  have hfnd : (runGraph c q).1.status = .complete →
      e.update.findings = (runGraph c q).1.findings := hfnd
  have hmap : (((runGraph c q).2).map (fun e => updateView e.update)).getLast?
      = some (updateView e.update) := by
    rw [List.getLast?_map, he, Option.map_some']
  have h2 : (executeResearchStreaming c q).2 =
      ((runGraph c q).2).map (fun e => updateView e.update) := by
    simp only [executeResearchStreaming]
    cases hx : (((runGraph c q).2).map (fun e => updateView e.update)).getLast? with
    | none => rfl
    | some v => dsimp only; split <;> rfl
  refine ⟨h2, ?_, ?_⟩
  · intro hErr
    constructor
    · simp only [executeResearch]
      rw [if_pos hErr]
    · simp only [executeResearchStreaming]
      rw [hmap]
      dsimp only
      have hvs : (updateView e.update).status = some AgentStatus.error := by
        show e.update.status = some AgentStatus.error
        rw [hstat, hErr]
      rw [if_pos hvs]
      have hve : (updateView e.update).error = (runGraph c q).1.error := herr hErr
      rw [hve]
  · intro hNe
    have hterm := runAux_terminal c 25 ⟨0, 0⟩ .queryParser (initialState q)
      (by simp [initialState]) (by simp [nodeBudget, initialState])
    have hCmp : (runGraph c q).1.status = .complete := by
      rcases hterm with hc | hc
      · exact hc
      · exact absurd hc hNe
    refine ⟨hCmp, ?_, ?_⟩
    · simp only [executeResearch]
      rw [if_neg hNe]
    · refine ⟨updateView e.update, ?_, ?_, ?_, ?_⟩
      · simp only [executeResearchStreaming]
        rw [hmap]
        dsimp only
        rw [if_neg ?_]
        intro hvs
        have : e.update.status = some AgentStatus.error := hvs
        rw [hstat] at this
        exact hNe (Option.some_inj.mp this)
      · show e.update.status = some AgentStatus.complete
        rw [hstat, hCmp]
      · exact hfnd hCmp
      · show (e.update.findings).isSome
        rw [hfnd hCmp]
        have := ((runGraph_findings_inv c q).2.1) hCmp
        exact this

/-- C1 witness: the amended theorem applied at the happy-path
collaborator. -/
theorem streaming_refines_run_witness :
    (executeResearchStreaming happyCollab "my query").2 =
      ((runGraph happyCollab "my query").2).map (fun e => updateView e.update) ∧
    ∃ v, (executeResearchStreaming happyCollab "my query").1 = .ok v ∧
      v.status = some .complete ∧
      v.findings = (runGraph happyCollab "my query").1.findings ∧ v.findings.isSome := by
  obtain ⟨h1, -, h3⟩ := streaming_refines_run happyCollab "my query"
  exact ⟨h1, (h3 (by decide)).2.2⟩

/-! ### C3: bound on node executions -/

/-- C3 counterexample: with a collaborator whose search is insufficient
on the first two attempts and sufficient on the third, the successful
run executes 9 nodes, exceeding the claimed bound of 7. -/
theorem nine_node_executions :
    ¬ ((runGraph retryCollab "my query").2.length ≤ 7) := by
  decide

/-- C3 (amended).  Every run terminates — ending in the complete or the
error status — after at most 9 node executions (2 retries of the
query-parser/search pair around the 5-node chain). -/
theorem run_terminates_within_nine (c : Collab) (q : String) :
    (runGraph c q).2.length ≤ 9 ∧
    ((runGraph c q).1.status = .complete ∨ (runGraph c q).1.status = .error) := by
  constructor
  · have h := runAux_length c 25 ⟨0, 0⟩ .queryParser (initialState q)
      (by simp [initialState])
    simpa [nodeBudget, initialState] using h
  · exact runAux_terminal c 25 ⟨0, 0⟩ .queryParser (initialState q)
      (by simp [initialState]) (by simp [nodeBudget, initialState])

end ResearchAgent
namespace ResearchAgent

set_option maxRecDepth 100000

/-! ### C5: report present iff terminal success -/

/-- C5.  In the final state of a run: complete implies findings present;
error implies findings absent and an error message present; findings are
present exactly in the complete status. -/
theorem report_iff_complete (c : Collab) (q : String) :
    ((runGraph c q).1.status = .complete → (runGraph c q).1.findings.isSome) ∧
    ((runGraph c q).1.status = .error →
      (runGraph c q).1.findings = none ∧ (runGraph c q).1.error.isSome) ∧
    ((runGraph c q).1.findings.isSome ↔ (runGraph c q).1.status = .complete) :=
  (runGraph_findings_inv c q).2

/-- C5 witness: the theorem applied at the always-insufficient
collaborator, whose run ends in the error status. -/
theorem report_iff_complete_witness :
    (runGraph failCollab "my query").1.findings = none ∧
    (runGraph failCollab "my query").1.error.isSome :=
  (report_iff_complete failCollab "my query").2.1 (by decide)

/-! ### C10: the retry suffix never reaches a search call -/

/-- C10.  The query parser ignores the enhancedQuery of its input (in
particular the suffixed query written by a search retry), and every
search invocation of a run happens on a state whose enhancedQuery is the
trimmed reply of an enhancement-LLM call on the original query alone. -/
theorem retry_suffix_never_searched (c : Collab) (q : String) :
    (∀ (k : Nat) (s : AgentState) (e1 e2 : Option String),
        parseQuery c k { s with enhancedQuery := e1 } =
        parseQuery c k { s with enhancedQuery := e2 }) ∧
    (∀ e ∈ (runGraph c q).2, e.node = .search →
        ∃ k r, c.enhance k q = .ok r ∧ e.input.enhancedQuery = some r.trim) :=
  ⟨fun _ _ _ _ => rfl, runGraph_search_inputs c q⟩

/-- C10 witness: in the retrying run, the second trace entry is a search
invocation and its input's enhancedQuery is an enhancement reply, not
the suffixed string. -/
theorem retry_suffix_never_searched_witness :
    ∃ k r, retryCollab.enhance k "my query" = .ok r ∧
      (((runGraph retryCollab "my query").2).getD 1 dummyEntry).input.enhancedQuery
        = some r.trim := by
  have hlen : 1 < ((runGraph retryCollab "my query").2).length := by decide
  have hget : (((runGraph retryCollab "my query").2).getD 1 dummyEntry)
      = ((runGraph retryCollab "my query").2)[1] := List.getD_eq_getElem _ _ hlen
  have hmem : (((runGraph retryCollab "my query").2).getD 1 dummyEntry)
      ∈ (runGraph retryCollab "my query").2 := by
    rw [hget]; exact List.getElem_mem _
  have hnode : (((runGraph retryCollab "my query").2).getD 1 dummyEntry).node = .search := by
    decide
  exact (retry_suffix_never_searched retryCollab "my query").2 _ hmem hnode

end ResearchAgent
namespace ResearchAgent

set_option maxRecDepth 100000

/-! ### C6: filter fallback and index clamping -/

/-- Reading a list back through getD at each index of its range yields
the list itself. -/
theorem range_map_getD {α : Type} (l : List α) (d : α) :
    (List.range l.length).map (fun i => l.getD i d) = l := by
  induction l with
  | nil => simp
  | cons a as ih =>
      rw [List.length_cons, List.range_succ_eq_map, List.map_cons, List.map_map]
      rw [List.getD_cons_zero]
      have hcomp : ((fun i => (a :: as).getD i d) ∘ Nat.succ) = (fun i => as.getD i d) :=
        funext fun i => List.getD_cons_succ
      rw [hcomp, ih]

/-- The index-sorting fallback of filterRelevance computes exactly the
top 5 of the stable descending sort of the raw results. -/
theorem filter_fallback_top5 (rs : List SearchHit) :
    (((((List.range rs.length).map Int.ofNat).mergeSort
        (fun a b => decide ((rs.getD b.toNat defaultHit).score ≤
                            (rs.getD a.toNat defaultHit).score))).take 5).filter
      (fun i => decide (0 ≤ i) && decide (i < (rs.length : Int)))).map
      (fun i => rs.getD i.toNat defaultHit)
      = (sortByScoreDesc rs).take 5 := by
  have hmem : ∀ i ∈ (((List.range rs.length).map Int.ofNat).mergeSort
      (fun a b => decide ((rs.getD b.toNat defaultHit).score ≤
                          (rs.getD a.toNat defaultHit).score))),
      0 ≤ i ∧ i < (rs.length : Int) := by
    intro i hi
    have := (List.mergeSort_perm ((List.range rs.length).map Int.ofNat) _).mem_iff.mp hi
    obtain ⟨i0, hi0, rfl⟩ := List.mem_map.mp this
    have := List.mem_range.mp hi0
    constructor
    · exact Int.ofNat_nonneg i0
    · exact Int.ofNat_lt.mpr this
  have hfilter : ((((List.range rs.length).map Int.ofNat).mergeSort
      (fun a b => decide ((rs.getD b.toNat defaultHit).score ≤
                          (rs.getD a.toNat defaultHit).score))).take 5).filter
      (fun i => decide (0 ≤ i) && decide (i < (rs.length : Int)))
      = (((List.range rs.length).map Int.ofNat).mergeSort
      (fun a b => decide ((rs.getD b.toNat defaultHit).score ≤
                          (rs.getD a.toNat defaultHit).score))).take 5 := by
    rw [List.filter_eq_self]
    intro i hi
    obtain ⟨h0, h1⟩ := hmem i (List.mem_of_mem_take hi)
    simp [h0, h1]
  rw [hfilter, List.map_take]
  congr 1
  rw [@List.map_mergeSort Int SearchHit
      (fun a b => decide ((rs.getD b.toNat defaultHit).score ≤
                          (rs.getD a.toNat defaultHit).score))
      (fun a b => decide (b.score ≤ a.score))
      (fun i => rs.getD i.toNat defaultHit)
      ((List.range rs.length).map Int.ofNat)
      (fun a _ b _ => rfl)]
  rw [sortByScoreDesc]
  congr 1
  rw [List.map_map]
  have hcomp : ((fun i => rs.getD i.toNat defaultHit) ∘ Int.ofNat)
      = (fun i => rs.getD i defaultHit) := by
    funext i
    simp
  rw [hcomp]
  exact range_map_getD rs defaultHit

/-- C6.  With non-empty raw results: an unparsable filter reply makes the
filter node fall back to the top 5 results by descending score, without
setting the error channel, advancing to the analyzing status; and a
parsed reply has its out-of-range indices discarded. -/
theorem filter_reply_handling (c : Collab) (s : AgentState) (rs : List SearchHit)
    (hrs : s.searchResults = some rs) (hne : rs ≠ []) :
    (c.filterLLM s.query (resultsText rs) = .ok .unparsable →
      (filterRelevance c s).1 =
        { relevantResults := some ((sortByScoreDesc rs).take 5),
          status := some .analyzing }) ∧
    (∀ l, c.filterLLM s.query (resultsText rs) = .ok (.indices l) →
      (filterRelevance c s).1 =
        { relevantResults := some ((l.filter
            (fun i => decide (0 ≤ i) && decide (i < (rs.length : Int)))).map
            (fun i => rs.getD i.toNat defaultHit)),
          status := some .analyzing } ∧
      ∀ h_ ∈ ((l.filter
            (fun i => decide (0 ≤ i) && decide (i < (rs.length : Int)))).map
            (fun i => rs.getD i.toNat defaultHit)),
        ∃ i, i ∈ l ∧ 0 ≤ i ∧ i < (rs.length : Int) ∧
          h_ = rs.getD i.toNat defaultHit) := by
  have hlen : ¬ rs.length = 0 := by
    intro h
    exact hne (List.eq_nil_of_length_eq_zero h)
  constructor
  · intro hreply
    simp only [filterRelevance, hrs, if_neg hlen, hreply]
    rw [filter_fallback_top5]
  · intro l hreply
    constructor
    · simp only [filterRelevance, hrs, if_neg hlen, hreply]
    · intro h_ hmem
      obtain ⟨i, hi, rfl⟩ := List.mem_map.mp hmem
      obtain ⟨hil, hpred⟩ := List.mem_filter.mp hi
      simp only [Bool.and_eq_true, decide_eq_true_eq] at hpred
      exact ⟨i, hil, hpred.1, hpred.2, rfl⟩

/-- C6 witness: the fallback branch of the theorem at a concrete state
whose raw results are out of score order. -/
theorem filter_reply_handling_witness :
    (filterRelevance unparsingCollab filterInputState).1 =
      { relevantResults := some ((sortByScoreDesc [lowHit, highHit]).take 5),
        status := some .analyzing } :=
  (filter_reply_handling unparsingCollab filterInputState [lowHit, highHit]
    rfl (by decide)).1 rfl

end ResearchAgent
namespace ResearchAgent

set_option maxRecDepth 100000

/-! ### C8: the analyze cap -/

/-- getD commutes with take within range. -/
theorem getD_take {α : Type} (l : List α) (d : α) (n j : Nat)
    (h : j < (l.take n).length) : (l.take n).getD j d = l.getD j d := by
  have hlen : j < l.length := by
    rw [List.length_take] at h
    omega
  rw [List.getD_eq_getElem _ _ h, List.getD_eq_getElem _ _ hlen]
  exact List.getElem_take l

/-- The analysis loop succeeds when every collaborator call it makes
succeeds, and produces one AnalysisStep per hit, in order, with the
hit's title, score and trimmed reply. -/
theorem analyzeLoop_ok (c : Collab) (q : String) :
    ∀ (l : List SearchHit) (i : Nat),
      (∀ j, j < l.length →
        ∃ t, c.analyzeLLM (i + j) q (l.getD j defaultHit).content = .ok t) →
      ∃ steps, analyzeLoop c q i l = .ok steps ∧ steps.length = l.length ∧
        ∀ j, j < l.length →
          (steps.getD j defaultStep).step =
            "Analysis of: " ++ (l.getD j defaultHit).title ∧
          (steps.getD j defaultStep).confidence = (l.getD j defaultHit).score ∧
          ∃ t, c.analyzeLLM (i + j) q (l.getD j defaultHit).content = .ok t ∧
            (steps.getD j defaultStep).findings = t.trim := by
  intro l
  induction l with
  | nil =>
      intro i _
      exact ⟨[], rfl, rfl, fun j hj => absurd hj (by simp)⟩
  | cons r rest ih =>
      intro i h
      obtain ⟨t, ht⟩ := h 0 (by simp)
      rw [Nat.add_zero, List.getD_cons_zero] at ht
      obtain ⟨steps', hloop, hlen, hprops⟩ := ih (i + 1) (fun j hj => by
        have hx := h (j + 1) (by simpa using Nat.succ_lt_succ hj)
        rw [List.getD_cons_succ] at hx
        rw [show i + (j + 1) = (i + 1) + j by omega] at hx
        exact hx)
      refine ⟨{ step := "Analysis of: " ++ r.title, findings := t.trim,
                confidence := r.score } :: steps', ?_, by simp [hlen], ?_⟩
      · simp only [analyzeLoop, ht, hloop]
      · intro j hj
        cases j with
        | zero =>
            refine ⟨by rw [List.getD_cons_zero, List.getD_cons_zero],
              by rw [List.getD_cons_zero, List.getD_cons_zero], t, ?_,
              by rw [List.getD_cons_zero]⟩
            rw [Nat.add_zero, List.getD_cons_zero]
            exact ht
        | succ j' =>
            have hj' : j' < rest.length := by simpa using Nat.lt_of_succ_lt_succ hj
            obtain ⟨h1, h2, t', h3, h4⟩ := hprops j' hj'
            rw [show i + (j' + 1) = (i + 1) + j' by omega]
            rw [List.getD_cons_succ, List.getD_cons_succ]
            exact ⟨h1, h2, t', h3, h4⟩

/-- C8.  With non-empty relevant results and successful analysis calls,
the analyze node produces exactly min(3, number of relevant results)
AnalysisSteps — one per hit among the first three, in input order, each
with confidence equal to that hit's score — and advances to the
synthesizing status. -/
theorem analyze_cap (c : Collab) (s : AgentState) (rs : List SearchHit)
    (hrs : s.relevantResults = some rs) (hne : rs ≠ [])
    (hok : ∀ j, j < min 3 rs.length →
      ∃ t, c.analyzeLLM j s.query (rs.getD j defaultHit).content = .ok t) :
    ∃ steps, analyzeResults c s =
        { analysisSteps := some steps, status := some .synthesizing } ∧
      steps.length = min 3 rs.length ∧
      ∀ j, j < min 3 rs.length →
        (steps.getD j defaultStep).step =
          "Analysis of: " ++ (rs.getD j defaultHit).title ∧
        (steps.getD j defaultStep).confidence = (rs.getD j defaultHit).score ∧
        ∃ t, c.analyzeLLM j s.query (rs.getD j defaultHit).content = .ok t ∧
          (steps.getD j defaultStep).findings = t.trim := by
  have hlen : ¬ rs.length = 0 := by
    intro h
    exact hne (List.eq_nil_of_length_eq_zero h)
  have htl : (rs.take 3).length = min 3 rs.length := by
    rw [List.length_take]
  obtain ⟨steps, hloop, hslen, hprops⟩ := analyzeLoop_ok c s.query (rs.take 3) 0
    (fun j hj => by
      rw [htl] at hj
      have := hok j hj
      rw [Nat.zero_add]
      rwa [getD_take rs defaultHit 3 j (by rw [htl]; exact hj)])
  refine ⟨steps, ?_, by rw [hslen, htl], ?_⟩
  · simp only [analyzeResults, hrs, if_neg hlen, hloop]
  · intro j hj
    have hj2 : j < (rs.take 3).length := by rw [htl]; exact hj
    obtain ⟨h1, h2, t, h3, h4⟩ := hprops j hj2
    rw [getD_take rs defaultHit 3 j hj2] at h1 h2
    rw [Nat.zero_add, getD_take rs defaultHit 3 j hj2] at h3
    exact ⟨h1, h2, t, h3, h4⟩

/-- C8 witness: with ten relevant results exactly three AnalysisSteps
are produced. -/
theorem analyze_cap_witness :
    ∃ steps, analyzeResults happyCollab analyzeInputState =
        { analysisSteps := some steps, status := some .synthesizing } ∧
      steps.length = 3 := by
  obtain ⟨steps, h1, h2, -⟩ := analyze_cap happyCollab analyzeInputState tenHits
    rfl (by decide) (fun j _ => ⟨"analysis text", rfl⟩)
  refine ⟨steps, h1, ?_⟩
  rw [h2]
  decide

end ResearchAgent
namespace ResearchAgent

set_option maxRecDepth 100000

/-! ### C4: the exhausted-retries scenario -/

/-- One routed step of the execution loop. -/
theorem runAux_step_some (c : Collab) (fuel : Nat) (cnt : Counters) (n n' : Node)
    (s : AgentState) (h : route n (postOf c cnt n s) = some n') :
    runAux c (fuel + 1) cnt n s =
      ((runAux c fuel (stepNode c cnt n s).2.2 n' (postOf c cnt n s)).1,
       ⟨n, s, (stepNode c cnt n s).1, postOf c cnt n s⟩ ::
         (runAux c fuel (stepNode c cnt n s).2.2 n' (postOf c cnt n s)).2) := by
  simp only [runAux, h]

/-- One terminating step of the execution loop. -/
theorem runAux_step_none (c : Collab) (fuel : Nat) (cnt : Counters) (n : Node)
    (s : AgentState) (h : route n (postOf c cnt n s) = none) :
    runAux c (fuel + 1) cnt n s =
      (postOf c cnt n s, [⟨n, s, (stepNode c cnt n s).1, postOf c cnt n s⟩]) := by
  simp only [runAux, h]

end ResearchAgent
namespace ResearchAgent

set_option maxRecDepth 100000

/-- The always-insufficient-search scenario: the run errors out with
searchAttempts exactly 2 after exactly 3 search invocations. -/
theorem exhausted_scenario (c : Collab) (q : String)
    (hE : ∀ k, ∃ r, c.enhance k q = .ok r)
    (hS : ∀ k qq, ∃ res, executeSearch c k qq = .ok res ∧
            validateSearchResults res = false) :
    (runGraph c q).1.status = .error ∧
    (runGraph c q).1.searchAttempts = 2 ∧
    (((runGraph c q).2).filter (fun e => decide (e.node = Node.search))).length = 3 ∧
    (runGraph c q).1.error = some "Could not find sufficient search results" := by
  obtain ⟨r0, h0⟩ := hE 0
  obtain ⟨r1, h1⟩ := hE 1
  obtain ⟨r2, h2⟩ := hE 2
  obtain ⟨res0, hok0, hval0⟩ := hS 0 (jsOrStr (some r0.trim) q)
  obtain ⟨res1, hok1, hval1⟩ := hS 1 (jsOrStr (some r1.trim) q)
  obtain ⟨res2, hok2, hval2⟩ := hS 2 (jsOrStr (some r2.trim) q)
  -- step 1: query parser on the initial state
  have e1 : stepNode c ⟨0, 0⟩ .queryParser (initialState q) =
      ({ enhancedQuery := some r0.trim, status := some .searching,
         messages := some [.human q, .ai r0.trim] },
       initialState q, ⟨1, 0⟩) := by
    simp [stepNode, parseQuery, h0, initialState]
  have p1 : postOf c ⟨0, 0⟩ .queryParser (initialState q) =
      { query := q, enhancedQuery := some r0.trim, searchResults := none,
        relevantResults := none, analysisSteps := none, findings := none,
        messages := [.human q, .ai r0.trim], status := .searching,
        error := none, searchAttempts := 0 } := by
    rw [postOf, e1]
    simp [applyUpdate, initialState]
  -- step 2: first search (attempt counter 0) retries
  have e2 : stepNode c ⟨1, 0⟩ .search
      { query := q, enhancedQuery := some r0.trim, searchResults := none,
        relevantResults := none, analysisSteps := none, findings := none,
        messages := [.human q, .ai r0.trim], status := .searching,
        error := none, searchAttempts := 0 } =
      ({ enhancedQuery := some (jsOrStr (some r0.trim) q ++
           " official documentation breaking changes"),
         status := some .parsing_query, searchAttempts := some 1 },
       { query := q, enhancedQuery := some r0.trim, searchResults := none,
         relevantResults := none, analysisSteps := none, findings := none,
         messages := [.human q, .ai r0.trim], status := .searching,
         error := none, searchAttempts := 0 }, ⟨1, 1⟩) := by
    simp [stepNode, searchNode, hok0, hval0]
  have p2 : postOf c ⟨1, 0⟩ .search
      { query := q, enhancedQuery := some r0.trim, searchResults := none,
        relevantResults := none, analysisSteps := none, findings := none,
        messages := [.human q, .ai r0.trim], status := .searching,
        error := none, searchAttempts := 0 } =
      { query := q,
        enhancedQuery := some (jsOrStr (some r0.trim) q ++
          " official documentation breaking changes"),
        searchResults := none, relevantResults := none, analysisSteps := none,
        findings := none, messages := [.human q, .ai r0.trim],
        status := .parsing_query, error := none, searchAttempts := 1 } := by
    rw [postOf, e2]
    simp [applyUpdate]
  -- step 3: second parse (counter 1)
  have e3 : stepNode c ⟨1, 1⟩ .queryParser
      { query := q,
        enhancedQuery := some (jsOrStr (some r0.trim) q ++
          " official documentation breaking changes"),
        searchResults := none, relevantResults := none, analysisSteps := none,
        findings := none, messages := [.human q, .ai r0.trim],
        status := .parsing_query, error := none, searchAttempts := 1 } =
      ({ enhancedQuery := some r1.trim, status := some .searching,
         messages := some [.human q, .ai r1.trim] },
       { query := q,
         enhancedQuery := some (jsOrStr (some r0.trim) q ++
           " official documentation breaking changes"),
         searchResults := none, relevantResults := none, analysisSteps := none,
         findings := none, messages := [.human q, .ai r0.trim],
         status := .parsing_query, error := none, searchAttempts := 1 }, ⟨2, 1⟩) := by
    simp [stepNode, parseQuery, h1]
  have p3 : postOf c ⟨1, 1⟩ .queryParser
      { query := q,
        enhancedQuery := some (jsOrStr (some r0.trim) q ++
          " official documentation breaking changes"),
        searchResults := none, relevantResults := none, analysisSteps := none,
        findings := none, messages := [.human q, .ai r0.trim],
        status := .parsing_query, error := none, searchAttempts := 1 } =
      { query := q, enhancedQuery := some r1.trim, searchResults := none,
        relevantResults := none, analysisSteps := none, findings := none,
        messages := [.human q, .ai r0.trim, .human q, .ai r1.trim],
        status := .searching, error := none, searchAttempts := 1 } := by
    rw [postOf, e3]
    simp [applyUpdate]
  -- step 4: second search (counter 1) retries again
  have e4 : stepNode c ⟨2, 1⟩ .search
      { query := q, enhancedQuery := some r1.trim, searchResults := none,
        relevantResults := none, analysisSteps := none, findings := none,
        messages := [.human q, .ai r0.trim, .human q, .ai r1.trim],
        status := .searching, error := none, searchAttempts := 1 } =
      ({ enhancedQuery := some (jsOrStr (some r1.trim) q ++
           " official documentation breaking changes"),
         status := some .parsing_query, searchAttempts := some 2 },
       { query := q, enhancedQuery := some r1.trim, searchResults := none,
         relevantResults := none, analysisSteps := none, findings := none,
         messages := [.human q, .ai r0.trim, .human q, .ai r1.trim],
         status := .searching, error := none, searchAttempts := 1 }, ⟨2, 2⟩) := by
    simp [stepNode, searchNode, hok1, hval1]
  have p4 : postOf c ⟨2, 1⟩ .search
      { query := q, enhancedQuery := some r1.trim, searchResults := none,
        relevantResults := none, analysisSteps := none, findings := none,
        messages := [.human q, .ai r0.trim, .human q, .ai r1.trim],
        status := .searching, error := none, searchAttempts := 1 } =
      { query := q,
        enhancedQuery := some (jsOrStr (some r1.trim) q ++
          " official documentation breaking changes"),
        searchResults := none, relevantResults := none, analysisSteps := none,
        findings := none,
        messages := [.human q, .ai r0.trim, .human q, .ai r1.trim],
        status := .parsing_query, error := none, searchAttempts := 2 } := by
    rw [postOf, e4]
    simp [applyUpdate]
  -- step 5: third parse (counter 2)
  have e5 : stepNode c ⟨2, 2⟩ .queryParser
      { query := q,
        enhancedQuery := some (jsOrStr (some r1.trim) q ++
          " official documentation breaking changes"),
        searchResults := none, relevantResults := none, analysisSteps := none,
        findings := none,
        messages := [.human q, .ai r0.trim, .human q, .ai r1.trim],
        status := .parsing_query, error := none, searchAttempts := 2 } =
      ({ enhancedQuery := some r2.trim, status := some .searching,
         messages := some [.human q, .ai r2.trim] },
       { query := q,
         enhancedQuery := some (jsOrStr (some r1.trim) q ++
           " official documentation breaking changes"),
         searchResults := none, relevantResults := none, analysisSteps := none,
         findings := none,
         messages := [.human q, .ai r0.trim, .human q, .ai r1.trim],
         status := .parsing_query, error := none, searchAttempts := 2 }, ⟨3, 2⟩) := by
    simp [stepNode, parseQuery, h2]
  have p5 : postOf c ⟨2, 2⟩ .queryParser
      { query := q,
        enhancedQuery := some (jsOrStr (some r1.trim) q ++
          " official documentation breaking changes"),
        searchResults := none, relevantResults := none, analysisSteps := none,
        findings := none,
        messages := [.human q, .ai r0.trim, .human q, .ai r1.trim],
        status := .parsing_query, error := none, searchAttempts := 2 } =
      { query := q, enhancedQuery := some r2.trim, searchResults := none,
        relevantResults := none, analysisSteps := none, findings := none,
        messages := [.human q, .ai r0.trim, .human q, .ai r1.trim,
          .human q, .ai r2.trim],
        status := .searching, error := none, searchAttempts := 2 } := by
    rw [postOf, e5]
    simp [applyUpdate]
  -- step 6: third search (counter 2) exhausts the retries
  have e6 : stepNode c ⟨3, 2⟩ .search
      { query := q, enhancedQuery := some r2.trim, searchResults := none,
        relevantResults := none, analysisSteps := none, findings := none,
        messages := [.human q, .ai r0.trim, .human q, .ai r1.trim,
          .human q, .ai r2.trim],
        status := .searching, error := none, searchAttempts := 2 } =
      ({ status := some .error,
         error := some "Could not find sufficient search results" },
       { query := q, enhancedQuery := some r2.trim, searchResults := none,
         relevantResults := none, analysisSteps := none, findings := none,
         messages := [.human q, .ai r0.trim, .human q, .ai r1.trim,
           .human q, .ai r2.trim],
         status := .searching, error := none, searchAttempts := 2 }, ⟨3, 3⟩) := by
    simp [stepNode, searchNode, hok2, hval2]
  have p6 : postOf c ⟨3, 2⟩ .search
      { query := q, enhancedQuery := some r2.trim, searchResults := none,
        relevantResults := none, analysisSteps := none, findings := none,
        messages := [.human q, .ai r0.trim, .human q, .ai r1.trim,
          .human q, .ai r2.trim],
        status := .searching, error := none, searchAttempts := 2 } =
      { query := q, enhancedQuery := some r2.trim, searchResults := none,
        relevantResults := none, analysisSteps := none, findings := none,
        messages := [.human q, .ai r0.trim, .human q, .ai r1.trim,
          .human q, .ai r2.trim],
        status := .error,
        error := some "Could not find sufficient search results",
        searchAttempts := 2 } := by
    rw [postOf, e6]
    simp [applyUpdate]
  -- assemble the run by unfolding six steps in the goal
  rw [runGraph]
  rw [show (25 : Nat) = 24 + 1 from rfl,
    runAux_step_some c 24 ⟨0, 0⟩ .queryParser .search (initialState q)
      (by rw [p1]; rfl)]
  rw [e1, p1]
  dsimp only
  rw [show (24 : Nat) = 23 + 1 from rfl,
    runAux_step_some c 23 ⟨1, 0⟩ .search .queryParser _ (by rw [p2]; rfl)]
  rw [e2, p2]
  dsimp only
  rw [show (23 : Nat) = 22 + 1 from rfl,
    runAux_step_some c 22 ⟨1, 1⟩ .queryParser .search _ (by rw [p3]; rfl)]
  rw [e3, p3]
  dsimp only
  rw [show (22 : Nat) = 21 + 1 from rfl,
    runAux_step_some c 21 ⟨2, 1⟩ .search .queryParser _ (by rw [p4]; rfl)]
  rw [e4, p4]
  dsimp only
  rw [show (21 : Nat) = 20 + 1 from rfl,
    runAux_step_some c 20 ⟨2, 2⟩ .queryParser .search _ (by rw [p5]; rfl)]
  rw [e5, p5]
  dsimp only
  rw [show (20 : Nat) = 19 + 1 from rfl,
    runAux_step_none c 19 ⟨3, 2⟩ .search _ (by rw [p6]; rfl)]
  rw [p6]
  refine ⟨rfl, rfl, ?_, rfl⟩
  simp [List.filter]

end ResearchAgent

namespace ResearchAgent

set_option maxRecDepth 100000

/-- C4.  retryCount (searchAttempts) never exceeds 2 in any reachable
state; and when search always returns results failing validation (with
the enhancement LLM answering), the run ends in the error status with
searchAttempts exactly 2 after exactly 3 search invocations. -/
theorem retry_bound_and_exhaustion (c : Collab) (q : String) :
    ((runGraph c q).1.searchAttempts ≤ 2 ∧
      ∀ e ∈ (runGraph c q).2,
        e.input.searchAttempts ≤ 2 ∧ e.post.searchAttempts ≤ 2) ∧
    ((∀ k, ∃ r, c.enhance k q = .ok r) →
     (∀ k qq, ∃ res, executeSearch c k qq = .ok res ∧
        validateSearchResults res = false) →
     (runGraph c q).1.status = .error ∧
     (runGraph c q).1.searchAttempts = 2 ∧
     (((runGraph c q).2).filter
        (fun e => decide (e.node = Node.search))).length = 3) := by
  refine ⟨⟨(runGraph_attempts_le c q).2, (runGraph_attempts_le c q).1⟩, ?_⟩
  intro hE hS
  obtain ⟨h1, h2, h3, -⟩ := exhausted_scenario c q hE hS
  exact ⟨h1, h2, h3⟩

/-- C4 witness: the scenario part applied at the always-insufficient
collaborator. -/
theorem retry_bound_and_exhaustion_witness :
    (runGraph failCollab "my query").1.status = .error ∧
    (runGraph failCollab "my query").1.searchAttempts = 2 ∧
    (((runGraph failCollab "my query").2).filter
      (fun e => decide (e.node = Node.search))).length = 3 :=
  (retry_bound_and_exhaustion failCollab "my query").2
    (fun _ => ⟨"enhanced query", rfl⟩)
    (fun _ _ => ⟨_, rfl, by decide⟩)

end ResearchAgent
